import Mathlib

/-
Verification of the option-strategy backtest engine
(investment_lab/backtest.py): NAV compounding, Greek P&L attribution and
transaction-cost policies, shallowly embedded over lists of rows.

Numeric cells are modelled as rationals; a pandas/numpy NaN is modelled as
the value `none` of `Option ℚ` (arithmetic propagates it, aggregation skips
it, as pandas does with skipna sums). Dates are integers (day numbers);
a pandas NaT expiration is `none : Option Int`.
-/

/-- Value of a float cell: `none` models NaN. -/
abbrev V := Option ℚ

/-- NaN-propagating addition, as numpy float addition. -/
def vadd : V → V → V
  | some a, some b => some (a + b)
  | _, _ => none

/-- NaN-propagating subtraction. -/
def vsub : V → V → V
  | some a, some b => some (a - b)
  | _, _ => none

/-- NaN-propagating multiplication (NaN times anything is NaN, as IEEE). -/
def vmul : V → V → V
  | some a, some b => some (a * b)
  | _, _ => none

/-- NaN-propagating negation. -/
def vneg : V → V
  | some a => some (-a)
  | none => none

/-- Sum of a float column with pandas default skipna semantics: NaN cells
are skipped, and an all-NaN column sums to 0. -/
def ssum : List V → ℚ
  | [] => 0
  | none :: t => ssum t
  | some a :: t => a + ssum t

/-- One (date, instrument) observation of the position book, after the
upstream enrichment merge: every market column the core reads is present.
`expiration` is `none` when the row carries no expiration (pandas NaT). -/
structure PositionRow where
  date : Int
  option_id : Nat
  entry_date : Int
  expiration : Option Int
  weight : ℚ
  mid : ℚ
  bid : ℚ
  ask : ℚ
  spot : ℚ
  implied_volatility : ℚ
  risk_free_rate : ℚ
  delta : ℚ
  theta : ℚ
  gamma : ℚ
  vega : ℚ
  rho : ℚ
  deriving DecidableEq, Repr

instance : Inhabited PositionRow :=
  ⟨{ date := 0, option_id := 0, entry_date := 0, expiration := none,
     weight := 0, mid := 0, bid := 0, ask := 0, spot := 0,
     implied_volatility := 0, risk_free_rate := 0, delta := 0, theta := 0,
     gamma := 0, vega := 0, rho := 0 }⟩

/-- StrategyBacktester.apply_tcost: the passthrough policy returns the
positions unchanged. -/
def StrategyBacktester.apply_tcost (df_positions : List PositionRow) :
    List PositionRow :=
  df_positions

/-- The four sequential numpy where overwrites of
BacktesterBidAskFromData.apply_tcost, applied to one row: trade-in short
takes bid, trade-out short takes ask, trade-in long takes ask, trade-out
long takes bid, each rewriting the running mid. -/
def bidAskMid (r : PositionRow) : ℚ :=
  let m1 := if r.entry_date = r.date ∧ r.weight < 0 then r.bid else r.mid
  let m2 := if r.expiration = some r.date ∧ r.weight < 0 then r.ask else m1
  let m3 := if r.entry_date = r.date ∧ ¬r.weight < 0 then r.ask else m2
  let m4 := if r.expiration = some r.date ∧ ¬r.weight < 0 then r.bid else m3
  m4

/-- BacktesterBidAskFromData.apply_tcost: rewrite mid from the data bid/ask
quotes on transaction dates; all other columns are copied unchanged. -/
def BacktesterBidAskFromData.apply_tcost (df_positions : List PositionRow) :
    List PositionRow :=
  df_positions.map (fun r => { r with mid := bidAskMid r })

/-- BacktesterFixedRelativeBidAsk.apply_tcost: check_is_true validates the
half spread is inside the closed unit interval (raising ValueError
otherwise, modelled as Except.error), synthesizes ask and bid around mid
and delegates to the BidAskFromData rule. -/
def BacktesterFixedRelativeBidAsk.apply_tcost (relative_half_spread : ℚ)
    (df_positions : List PositionRow) : Except String (List PositionRow) :=
  if 0 ≤ relative_half_spread ∧ relative_half_spread ≤ 1 then
    .ok (BacktesterBidAskFromData.apply_tcost
      (df_positions.map (fun r =>
        { r with ask := r.mid * (1 + relative_half_spread),
                 bid := r.mid * (1 - relative_half_spread) })))
  else
    .error "Error, relative half spread must be between 0 and 1."

/-- Mid rewriting per the wording of the spec (section 4.2): on the date a
position is opened set mid to ask when long and bid when short; on the date
it closes set mid to bid when long and ask when short; the assignments are
applied in the stated order, so a same-day open-and-close row ends on the
closing value. -/
def midPerSpecBidAsk (r : PositionRow) : ℚ :=
  let afterOpen :=
    if r.entry_date = r.date then (if r.weight < 0 then r.bid else r.ask)
    else r.mid
  if r.expiration = some r.date then (if r.weight < 0 then r.ask else r.bid)
  else afterOpen

lemma bidAskMid_eq_midPerSpec (r : PositionRow) :
    bidAskMid r = midPerSpecBidAsk r := by
  by_cases he : r.entry_date = r.date <;>
    by_cases hx : r.expiration = some r.date <;>
    by_cases hs : r.weight < 0 <;>
    simp [bidAskMid, midPerSpecBidAsk, he, hx, hs]

/-- C6 (confirmed): under the BidAskFromData policy, each row keeps all of
its columns except mid, which becomes ask on the opening date for a long
position and bid for a short one, and bid on the closing date for a long
position and ask for a short one (closing assignment applied last); every
other row keeps its mid unchanged. -/
theorem bid_ask_from_data_rule (df_positions : List PositionRow) :
    BacktesterBidAskFromData.apply_tcost df_positions =
      df_positions.map (fun r => { r with mid := midPerSpecBidAsk r }) := by
  unfold BacktesterBidAskFromData.apply_tcost
  exact congrFun (congrArg List.map
    (funext fun r => by rw [bidAskMid_eq_midPerSpec])) df_positions

/-- Row transformation per the wording of the FixedRelativeSpread claim:
ask and bid are synthesized at mid times (1 plus or minus s), and mid is
rewritten by exactly the BidAskFromData rule evaluated on the synthesized
quotes; every other column is unchanged. -/
def fixedRelPerSpecRow (s : ℚ) (r : PositionRow) : PositionRow :=
  { r with
    ask := r.mid * (1 + s),
    bid := r.mid * (1 - s),
    mid :=
      if r.expiration = some r.date then
        (if r.weight < 0 then r.mid * (1 + s) else r.mid * (1 - s))
      else if r.entry_date = r.date then
        (if r.weight < 0 then r.mid * (1 - s) else r.mid * (1 + s))
      else r.mid }

/-- C7 (confirmed): the FixedRelativeSpread policy fails with the range
validation error exactly when the half spread s is outside the closed
interval from 0 to 1; in range, it returns the book with ask = mid(1+s),
bid = mid(1-s) and mid rewritten by the BidAskFromData rule on those
synthesized quotes, all other columns unchanged. -/
theorem fixed_relative_spread_rule (s : ℚ) (df_positions : List PositionRow) :
    (¬(0 ≤ s ∧ s ≤ 1) →
      BacktesterFixedRelativeBidAsk.apply_tcost s df_positions =
        .error "Error, relative half spread must be between 0 and 1.") ∧
    ((0 ≤ s ∧ s ≤ 1) →
      BacktesterFixedRelativeBidAsk.apply_tcost s df_positions =
        .ok (df_positions.map (fixedRelPerSpecRow s))) := by
  constructor
  · intro h
    simp [BacktesterFixedRelativeBidAsk.apply_tcost, h]
  · intro h
    simp only [BacktesterFixedRelativeBidAsk.apply_tcost, if_pos h,
      BacktesterBidAskFromData.apply_tcost, List.map_map, Except.ok.injEq]
    refine congrFun (congrArg List.map (funext fun r => ?_)) df_positions
    by_cases he : r.entry_date = r.date <;>
      by_cases hx : r.expiration = some r.date <;>
      by_cases hs : r.weight < 0 <;>
      simp [Function.comp, bidAskMid, fixedRelPerSpecRow, he, hx, hs]

/-- Row used to instantiate witnesses for the policy theorems. -/
def tcostWitnessRow : PositionRow :=
  { date := 5, option_id := 3, entry_date := 5, expiration := some 9,
    weight := -2, mid := 10, bid := 9, ask := 11, spot := 100,
    implied_volatility := 1/5, risk_free_rate := 1/20, delta := 1/2,
    theta := -1/10, gamma := 1/100, vega := 3/10, rho := 1/4 }

/-- Witness for C7: with half spread 3/2 the policy fails with the range
error; with half spread 1/2 it returns the synthesized-quote rewrite of a
concrete short entry row (mid 10 becomes the synthesized bid 5). -/
theorem fixed_relative_spread_rule_witness :
    (¬((0:ℚ) ≤ 3/2 ∧ (3/2:ℚ) ≤ 1) ∧
      BacktesterFixedRelativeBidAsk.apply_tcost (3/2) [tcostWitnessRow] =
        .error "Error, relative half spread must be between 0 and 1.") ∧
    (((0:ℚ) ≤ 1/2 ∧ (1/2:ℚ) ≤ 1) ∧
      BacktesterFixedRelativeBidAsk.apply_tcost (1/2) [tcostWitnessRow] =
        .ok [fixedRelPerSpecRow (1/2) tcostWitnessRow]) := by
  refine ⟨⟨by norm_num, (fixed_relative_spread_rule (3/2) [tcostWitnessRow]).1 (by norm_num)⟩,
    ⟨by norm_num, (fixed_relative_spread_rule (1/2) [tcostWitnessRow]).2 (by norm_num)⟩⟩

/-- C10 (confirmed): the short filter of BidAskFromData is weight strictly
below zero and long is its complement, so a row with weight exactly 0 is
treated as long: on its entry date (and not closing date) its mid becomes
ask, and on its closing date its mid becomes bid. -/
theorem zero_weight_long_classification (r : PositionRow)
    (h0 : r.weight = 0) :
    (¬r.weight < 0) ∧
    (r.entry_date = r.date → r.expiration ≠ some r.date →
      bidAskMid r = r.ask) ∧
    (r.expiration = some r.date → bidAskMid r = r.bid) := by
  have hlt : ¬r.weight < 0 := by rw [h0]; exact lt_irrefl 0
  refine ⟨hlt, fun he hx => ?_, fun hx => ?_⟩
  · simp [bidAskMid, he, hx, hlt]
  · simp [bidAskMid, hx, hlt]

/-- Witness for C10: a concrete zero-weight row is classified long, gets
ask on its entry date and bid on its closing date. -/
theorem zero_weight_long_classification_witness :
    (¬({ tcostWitnessRow with weight := 0 } : PositionRow).weight < 0) ∧
    bidAskMid { tcostWitnessRow with weight := 0, date := 5 } = 11 ∧
    bidAskMid { tcostWitnessRow with weight := 0, date := 9 } = 9 := by
  refine ⟨(zero_weight_long_classification _ rfl).1, ?_, ?_⟩
  · exact ((zero_weight_long_classification
      { tcostWitnessRow with weight := 0, date := 5 } rfl).2.1 rfl (by decide)).trans rfl
  · exact ((zero_weight_long_classification
      { tcostWitnessRow with weight := 0, date := 9 } rfl).2.2 rfl).trans rfl

/-- Row after the period-to-period differencing block of compute_backtest:
dv, dsigma, dS are groupwise diffs with fillna(0); dr is assigned the NaN
scalar (the risk-free-rate diff is commented out in the source); dt is the
constant 1; the prev columns are the groupwise one-period shifts after the
frame-wide backward fill; obs_date is entry_date minus one calendar day. -/
structure DiffRow extends PositionRow where
  dv : ℚ
  dr : V
  dsigma : ℚ
  dS : ℚ
  dt : ℚ
  prev_theta : V
  prev_gamma : V
  prev_delta : V
  prev_vega : V
  prev_rho : V
  obs_date : Int
  deriving DecidableEq, Repr

instance : Inhabited DiffRow :=
  ⟨{ toPositionRow := default, dv := 0, dr := none, dsigma := 0, dS := 0,
     dt := 1, prev_theta := none, prev_gamma := none, prev_delta := none,
     prev_vega := none, prev_rho := none, obs_date := 0 }⟩

/-- Sort key of sort_values on the columns option_id then date. -/
def rowKeyLE (a b : PositionRow) : Bool :=
  a.option_id < b.option_id ∨ (a.option_id = b.option_id ∧ a.date ≤ b.date)

/-- Insert a row into an already key-sorted list, before the first row it
does not strictly follow (stable for equal keys). -/
def insertRow (r : PositionRow) : List PositionRow → List PositionRow
  | [] => [r]
  | s :: t => if rowKeyLE r s then r :: s :: t else s :: insertRow r t

/-- sort_values on option_id then date (stable insertion sort). -/
def sort_values : List PositionRow → List PositionRow
  | [] => []
  | r :: t => insertRow r (sort_values t)

/-- Most recent previously seen row per option_id, as the accumulator of
the groupwise diff and shift operations (front of the list wins). -/
def lastSeen (st : List (Nat × PositionRow)) (id : Nat) : Option PositionRow :=
  (st.find? (fun p => p.1 == id)).map (fun p => p.2)

/-- One row of the diff and shift block: diffs against the most recent row
of the same option_id (0 when there is none, after fillna), shifted Greeks
(NaN when there is none, before the backward fill), dr assigned NaN, dt 1,
and obs_date computed as entry_date minus one day. -/
def shiftDiffRow (st : List (Nat × PositionRow)) (r : PositionRow) : DiffRow :=
  match lastSeen st r.option_id with
  | none =>
      { toPositionRow := r, dv := 0, dr := none, dsigma := 0, dS := 0,
        dt := 1, prev_theta := none, prev_gamma := none, prev_delta := none,
        prev_vega := none, prev_rho := none, obs_date := r.entry_date - 1 }
  | some p =>
      { toPositionRow := r, dv := r.mid - p.mid, dr := none,
        dsigma := r.implied_volatility - p.implied_volatility,
        dS := r.spot - p.spot, dt := 1,
        prev_theta := some p.theta, prev_gamma := some p.gamma,
        prev_delta := some p.delta, prev_vega := some p.vega,
        prev_rho := some p.rho, obs_date := r.entry_date - 1 }

/-- Forward pass of the differencer over the whole frame. -/
def shiftDiff (st : List (Nat × PositionRow)) :
    List PositionRow → List DiffRow
  | [] => []
  | r :: t => shiftDiffRow st r :: shiftDiff ((r.option_id, r) :: st) t

/-- Head values of the five filled prev columns of a frame (used to fill a
NaN from the next valid observation below). -/
def headPrevs : List DiffRow → V × V × V × V × V
  | [] => (none, none, none, none, none)
  | q :: _ => (q.prev_theta, q.prev_gamma, q.prev_delta, q.prev_vega, q.prev_rho)

/-- Keep a present value, otherwise take the fallback (one cell of a
pandas backward fill). -/
def fillO (a b : V) : V :=
  match a with
  | some v => some v
  | none => b

/-- Frame-wide backward fill of the five shifted Greek columns, exactly as
the source applies fillna bfill to the whole shifted series (NaN cells take
the next valid value below, across instrument groups; trailing NaN stay). -/
def bfillPrev : List DiffRow → List DiffRow
  | [] => []
  | d :: t =>
      let t2 := bfillPrev t
      let h := headPrevs t2
      { d with
        prev_theta := fillO d.prev_theta h.1,
        prev_gamma := fillO d.prev_gamma h.2.1,
        prev_delta := fillO d.prev_delta h.2.2.1,
        prev_vega := fillO d.prev_vega h.2.2.2.1,
        prev_rho := fillO d.prev_rho h.2.2.2.2 } :: t2

/-- The whole differencing block of compute_backtest. -/
def diffPositions (rows : List PositionRow) : List DiffRow :=
  bfillPrev (shiftDiff [] rows)

/-- One row of the aggregated daily output, in the order of the source
column list _PNL_COLS. -/
structure PnlVec where
  pnl : ℚ
  delta_pnl : ℚ
  gamma_pnl : ℚ
  theta_pnl : ℚ
  vega_pnl : ℚ
  rho_pnl : ℚ
  residual_pnl : ℚ
  leverage : ℚ
  cashflow : ℚ
  deriving DecidableEq, Repr

/-- Zero daily vector (the synthetic seed row of df_pnl). -/
def PnlVec.zero : PnlVec :=
  { pnl := 0, delta_pnl := 0, gamma_pnl := 0, theta_pnl := 0, vega_pnl := 0,
    rho_pnl := 0, residual_pnl := 0, leverage := 0, cashflow := 0 }

instance : Inhabited PnlVec := ⟨PnlVec.zero⟩

/-- Exact index lookup in the NAV series (the left merge on obs_date and
the membership test on df_nav.index): first entry with the given date. -/
def navLookup (nav : List (Int × ℚ)) (d : Int) : Option ℚ :=
  (nav.find? (fun p => p.1 == d)).map (fun p => p.2)

/-- Maximum date of the NAV index. -/
def navMaxDate : List (Int × ℚ) → Int
  | [] => 0
  | p :: t => t.foldl (fun m q => max m q.1) p.1

/-- Latest available NAV entry: the first row whose index equals the index
maximum, as df_nav at index max, iloc 0. -/
def navLatest (nav : List (Int × ℚ)) : ℚ :=
  (navLookup nav (navMaxDate nav)).getD 1

/-- Exact date lookup in the aggregated daily table (df_pnl.loc). -/
def pnlLookup (tbl : List (Int × PnlVec)) (d : Int) : Option PnlVec :=
  (tbl.find? (fun p => p.1 == d)).map (fun p => p.2)

/-- Instrument row of a daily frame after the attribution step: merged NAV,
scaled weight and the Taylor-decomposed P&L columns. -/
structure DayRow extends DiffRow where
  NAV : V
  scaled_weight : V
  pnl : V
  gamma_pnl : V
  delta_pnl : V
  theta_pnl : V
  vega_pnl : V
  rho_pnl : V
  residual_pnl : V
  leverage : V
  cashflow : V
  deriving DecidableEq, Repr

instance : Inhabited DayRow :=
  ⟨{ toDiffRow := default, NAV := none, scaled_weight := none, pnl := none,
     gamma_pnl := none, delta_pnl := none, theta_pnl := none,
     vega_pnl := none, rho_pnl := none, residual_pnl := none,
     leverage := none, cashflow := none }⟩

/-- Daily attribution for one instrument row: left-merge the NAV series on
obs_date, scale the weight, compute the P&L decomposition, leverage and the
two sequential cashflow overwrites (entry first, expiration second). -/
def computeDay (nav : List (Int × ℚ)) (r : DiffRow) : DayRow :=
  let navV := navLookup nav r.obs_date
  let sw := vmul (some r.weight) navV
  let pnl := vmul sw (some r.dv)
  let gamma_pnl := vmul (vmul (vmul (some (1/2 : ℚ)) sw) (some (r.dS * r.dS))) r.prev_gamma
  let delta_pnl := vmul (vmul sw (some r.dS)) r.prev_delta
  let theta_pnl := vmul (vmul sw (some r.dt)) r.prev_theta
  let vega_pnl := vmul (vmul sw (some r.dsigma)) r.prev_vega
  let rho_pnl := vmul (vmul sw r.dr) r.prev_rho
  let residual_pnl :=
    vsub (vsub (vsub (vsub (vsub pnl delta_pnl) gamma_pnl) theta_pnl) vega_pnl) rho_pnl
  let leverage := vmul sw (some r.spot)
  let cf1 := if r.entry_date = r.date then vneg (vmul sw (some r.mid)) else some 0
  let cf2 := if r.expiration = some r.date then vmul sw (some r.mid) else cf1
  { toDiffRow := r, NAV := navV, scaled_weight := sw, pnl := pnl,
    gamma_pnl := gamma_pnl, delta_pnl := delta_pnl, theta_pnl := theta_pnl,
    vega_pnl := vega_pnl, rho_pnl := rho_pnl, residual_pnl := residual_pnl,
    leverage := leverage, cashflow := cf2 }

/-- Per-date aggregation: skipna sum of every P&L column over the rows of
the daily frame (the groupby date sum of the source). -/
def aggDay (day : List DayRow) : PnlVec :=
  { pnl := ssum (day.map (fun r => r.pnl)),
    delta_pnl := ssum (day.map (fun r => r.delta_pnl)),
    gamma_pnl := ssum (day.map (fun r => r.gamma_pnl)),
    theta_pnl := ssum (day.map (fun r => r.theta_pnl)),
    vega_pnl := ssum (day.map (fun r => r.vega_pnl)),
    rho_pnl := ssum (day.map (fun r => r.rho_pnl)),
    residual_pnl := ssum (day.map (fun r => r.residual_pnl)),
    leverage := ssum (day.map (fun r => r.leverage)),
    cashflow := ssum (day.map (fun r => r.cashflow)) }

/-- Running state of the compounding loop: accumulated daily table, NAV
series and the concatenated drifted positions. -/
structure BTState where
  df_pnl : List (Int × PnlVec)
  df_nav : List (Int × ℚ)
  drifted : List DayRow
  deriving DecidableEq, Repr

/-- Anchor resolution of the compounding update: the exact entry when the
date is already a key of the NAV index, otherwise the entry at the index
maximum (the latest available). -/
def navAnchor (nav : List (Int × ℚ)) (d : Int) : ℚ :=
  match navLookup nav d with
  | some v => v
  | none => navLatest nav

/-- One iteration of the date loop of compute_backtest: build the daily
frame, run the attribution against the NAV series as it stands, append the
date aggregate to df_pnl, resolve the anchor and append the compounded
NAV. -/
def stepDate (rows : List DiffRow) (st : BTState) (d : Int) : BTState :=
  let df_day := (rows.filter (fun r => r.date == d)).map (computeDay st.df_nav)
  let df_pnl := st.df_pnl ++ [(d, aggDay df_day)]
  let latest : ℚ := navAnchor st.df_nav d
  let pnlAtD : ℚ := ((pnlLookup df_pnl d).getD PnlVec.zero).pnl
  { df_pnl := df_pnl,
    df_nav := st.df_nav ++ [(d, latest + pnlAtD)],
    drifted := st.drifted ++ df_day }

/-- Minimum date of the book (0 for an empty book). -/
def minDate : List PositionRow → Int
  | [] => 0
  | r :: t => t.foldl (fun m s => min m s.date) r.date

/-- Insert a date into a strictly ascending date list, keeping it strictly
ascending (duplicates dropped). -/
def insertDate (d : Int) : List Int → List Int
  | [] => [d]
  | x :: t =>
      if d < x then d :: x :: t
      else if d = x then x :: t
      else x :: insertDate d t

/-- Distinct dates in ascending order (the sorted unique date values the
source iterates over). -/
def uniqueDates (l : List Int) : List Int :=
  l.foldr insertDate []

/-- StrategyBacktester.compute_backtest after the transaction-cost policy:
sort by option_id and date, run the differencing block, seed df_pnl with a
zero row and df_nav with 1 at one day before the first position date, and
fold the date loop over the distinct dates in ascending order. -/
def StrategyBacktester.compute_backtest (book : List PositionRow) : BTState :=
  let rows := diffPositions (sort_values book)
  let d0 := minDate book - 1
  let dates := uniqueDates (book.map (fun r => r.date))
  List.foldl (stepDate rows)
    { df_pnl := [(d0, PnlVec.zero)], df_nav := [(d0, 1)], drifted := [] }
    dates


/-- Template row for the concrete books below. -/
def baseRow : PositionRow :=
  { date := 0, option_id := 0, entry_date := 0, expiration := none,
    weight := 1, mid := 10, bid := 9, ask := 11, spot := 100,
    implied_volatility := 1/5, risk_free_rate := 1/20, delta := 0, theta := 0,
    gamma := 0, vega := 0, rho := 0 }

/-- Book with a position opened on date 3 after a date gap: its obs_date 2
is never a key of the NAV series (the series holds the seed date 0 and the
trading dates), so the left merge yields a null anchor. -/
def ex1Book : List PositionRow :=
  [ { baseRow with date := 1, entry_date := 1, mid := 10 },
    { baseRow with date := 3, entry_date := 3, mid := 11 },
    { baseRow with date := 4, entry_date := 3, mid := 12 } ]

/-- C1 counterexample: on ex1Book, the drifted row of trading date 3 (a
date present in the position book) carries a null merged NAV and a null
scaled_weight — the anchor lookup has no latest-available fallback, so
scaled_weight is not always computed from a non-null NAV value. -/
theorem anchor_nav_unresolved_counterexample :
    (((StrategyBacktester.compute_backtest ex1Book).drifted.getD 1 default).date = 3 ∧
      3 ∈ ex1Book.map (fun r => r.date)) ∧
    ((StrategyBacktester.compute_backtest ex1Book).drifted.getD 1 default).NAV = none ∧
    ((StrategyBacktester.compute_backtest ex1Book).drifted.getD 1 default).scaled_weight = none := by
  norm_num [StrategyBacktester.compute_backtest, stepDate, navAnchor, computeDay,
    aggDay, ssum, vmul, vadd, vsub, vneg, navLookup, navLatest, navMaxDate,
    pnlLookup, PnlVec.zero, minDate, uniqueDates, insertDate,
    diffPositions, sort_values, insertRow, rowKeyLE, shiftDiff,
    shiftDiffRow, lastSeen, bfillPrev, headPrevs, fillO, ex1Book, baseRow]

/-- Concrete scenario of spec section 8: one instrument, weight 1, mids
10, 11, 9 on dates 1, 2, 3, delta 1 throughout, constant spot. -/
def ex2Book : List PositionRow :=
  [ { baseRow with date := 1, entry_date := 1, mid := 10, delta := 1 },
    { baseRow with date := 2, entry_date := 1, mid := 11, delta := 1 },
    { baseRow with date := 3, entry_date := 1, mid := 9, delta := 1 } ]

/-- C2 counterexample: on ex2Book, the aggregated vector of date 2 has
pnl 1 while delta, gamma, theta, vega, rho and residual aggregates are all
0 (the per-row rho and residual values are NaN because dr is NaN, and the
skipna sums turn them into 0), so the decomposition identity fails. -/
theorem pnl_identity_counterexample :
    pnlLookup (StrategyBacktester.compute_backtest ex2Book).df_pnl 2 =
      some { pnl := 1, delta_pnl := 0, gamma_pnl := 0, theta_pnl := 0,
             vega_pnl := 0, rho_pnl := 0, residual_pnl := 0,
             leverage := 100, cashflow := 0 } ∧
    (1 : ℚ) ≠ 0 + 0 + 0 + 0 + 0 + 0 := by
  constructor
  · norm_num [StrategyBacktester.compute_backtest, stepDate, navAnchor, computeDay,
      aggDay, ssum, vmul, vadd, vsub, vneg, navLookup, navLatest, navMaxDate,
      pnlLookup, PnlVec.zero, minDate, uniqueDates, insertDate,
      diffPositions, sort_values, insertRow, rowKeyLE, shiftDiff,
      shiftDiffRow, lastSeen, bfillPrev, headPrevs, fillO, ex2Book, baseRow]
  · norm_num

/-- Book whose risk-free rate moves from 5/100 to 7/100 between the first
two observations of the same instrument. -/
def ex3Book : List PositionRow :=
  [ { baseRow with date := 1, entry_date := 1, risk_free_rate := 5/100 },
    { baseRow with date := 2, entry_date := 1, risk_free_rate := 7/100 },
    { baseRow with date := 3, entry_date := 1, risk_free_rate := 9/100 } ]

/-- C3 counterexample: on ex3Book, the second row of the instrument has
dr equal to NaN, not the first difference 7/100 minus 5/100 of the
risk-free rate — the dr column is assigned the NaN scalar and the rate
differencing is disabled in the source. -/
theorem dr_not_first_difference_counterexample :
    ((diffPositions (sort_values ex3Book)).getD 1 default).dr = none ∧
    ((diffPositions (sort_values ex3Book)).getD 1 default).dr ≠
      some ((7 : ℚ)/100 - 5/100) := by
  have h : ((diffPositions (sort_values ex3Book)).getD 1 default).dr = none := by
    norm_num [diffPositions, sort_values, insertRow, rowKeyLE, shiftDiff,
      shiftDiffRow, lastSeen, bfillPrev, headPrevs, fillO, ex3Book, baseRow]
  exact ⟨h, by rw [h]; exact fun hc => Option.noConfusion hc⟩

/-- Book with theta 1 on every observation of a single instrument. -/
def ex4Book : List PositionRow :=
  [ { baseRow with date := 1, entry_date := 1, theta := 1 },
    { baseRow with date := 2, entry_date := 1, theta := 1 },
    { baseRow with date := 3, entry_date := 1, theta := 1 } ]

/-- C4 counterexample: on ex4Book the instrument's very first row has its
first-period differences dv, dsigma, dS all 0, yet the aggregated theta
P&L of its date is 1, not 0: dt is the constant 1 and prev_theta is
backward-filled with the row's own theta, so the first row contributes a
full period of theta P&L. -/
theorem first_row_theta_counterexample :
    (((diffPositions (sort_values ex4Book)).getD 0 default).dv = 0 ∧
      ((diffPositions (sort_values ex4Book)).getD 0 default).dsigma = 0 ∧
      ((diffPositions (sort_values ex4Book)).getD 0 default).dS = 0) ∧
    pnlLookup (StrategyBacktester.compute_backtest ex4Book).df_pnl 1 =
      some { pnl := 0, delta_pnl := 0, gamma_pnl := 0, theta_pnl := 1,
             vega_pnl := 0, rho_pnl := 0, residual_pnl := 0,
             leverage := 100, cashflow := -10 } ∧
    (1 : ℚ) ≠ 0 := by
  refine ⟨?_, ?_, by norm_num⟩
  · norm_num [diffPositions, sort_values, insertRow, rowKeyLE, shiftDiff,
      shiftDiffRow, lastSeen, bfillPrev, headPrevs, fillO, ex4Book, baseRow]
  · norm_num [StrategyBacktester.compute_backtest, stepDate, navAnchor, computeDay,
      aggDay, ssum, vmul, vadd, vsub, vneg, navLookup, navLatest, navMaxDate,
      pnlLookup, PnlVec.zero, minDate, uniqueDates, insertDate,
      diffPositions, sort_values, insertRow, rowKeyLE, shiftDiff,
      shiftDiffRow, lastSeen, bfillPrev, headPrevs, fillO, ex4Book, baseRow]

/-- Row builder for the two sequential-dependency books: instrument 0 has
a single observation on date 1, instrument 1 has observations on dates 2
and 3. -/
def ex9Row (id : Nat) (d : Int) (th : ℚ) : PositionRow :=
  { baseRow with
    option_id := id, date := d,
    entry_date := (if id == 0 then 1 else 2), theta := th }

/-- Sequential-dependency book, first variant: instrument 1 has theta 5 on
date 2. -/
def ex9BookA : List PositionRow :=
  [ex9Row 0 1 0, ex9Row 1 2 5, ex9Row 1 3 6]

/-- Sequential-dependency book, second variant: identical to the first on
every row dated before 2, differing only in the theta of instrument 1 on
date 2 (7 instead of 5). -/
def ex9BookB : List PositionRow :=
  [ex9Row 0 1 0, ex9Row 1 2 7, ex9Row 1 3 6]

/-- C9 (code bug): the two books agree on every row dated before 2 and
differ only in a Greek value on date 2, yet their aggregated theta P&L on
date 1 differs (5 versus 7): the backward fill of the shifted Greeks is
applied to the whole frame rather than within each instrument group, so
the single-observation instrument 0 picks up the date-2 theta of
instrument 1 as its lagged theta on date 1. -/
theorem sequential_dependency_violation :
    pnlLookup (StrategyBacktester.compute_backtest ex9BookA).df_pnl 1 =
      some { pnl := 0, delta_pnl := 0, gamma_pnl := 0, theta_pnl := 5,
             vega_pnl := 0, rho_pnl := 0, residual_pnl := 0,
             leverage := 100, cashflow := -10 } ∧
    pnlLookup (StrategyBacktester.compute_backtest ex9BookB).df_pnl 1 =
      some { pnl := 0, delta_pnl := 0, gamma_pnl := 0, theta_pnl := 7,
             vega_pnl := 0, rho_pnl := 0, residual_pnl := 0,
             leverage := 100, cashflow := -10 } ∧
    (5 : ℚ) ≠ 7 := by
  refine ⟨?_, ?_, by norm_num⟩ <;>
    norm_num [StrategyBacktester.compute_backtest, stepDate, navAnchor, computeDay,
      aggDay, ssum, vmul, vadd, vsub, vneg, navLookup, navLatest, navMaxDate,
      pnlLookup, PnlVec.zero, minDate, uniqueDates, insertDate,
      diffPositions, sort_values, insertRow, rowKeyLE, shiftDiff,
      shiftDiffRow, lastSeen, bfillPrev, headPrevs, fillO,
      ex9BookA, ex9BookB, ex9Row, baseRow]

/-- C8 (confirmed): in the daily attribution step, a row's cashflow is 0
unless its entry_date equals the trading date (minus scaled_weight times
mid) or its expiration equals the trading date (plus scaled_weight times
mid); when both hold on the same row the expiration assignment wins, as it
is the second of the two sequential overwrites. -/
theorem cashflow_rule (nav : List (Int × ℚ)) (r : DiffRow) :
    (computeDay nav r).cashflow =
      (if r.expiration = some r.date then
        vmul (computeDay nav r).scaled_weight (some r.mid)
      else if r.entry_date = r.date then
        vneg (vmul (computeDay nav r).scaled_weight (some r.mid))
      else some 0) := by
  by_cases hx : r.expiration = some r.date <;>
    by_cases he : r.entry_date = r.date <;>
    simp [computeDay, hx, he]

/-- C1 (corrected): the anchor NAV of a row is resolved by an exact left
join of its obs_date against the NAV series index, with no fallback at the
row level: when obs_date is a key the merged NAV is that entry and
scaled_weight is weight times it, and when obs_date is not a key the merged
NAV and scaled_weight are null. -/
theorem anchor_nav_exact_lookup (nav : List (Int × ℚ)) (r : DiffRow) :
    (navLookup nav r.obs_date = none →
      (computeDay nav r).NAV = none ∧ (computeDay nav r).scaled_weight = none) ∧
    (∀ v : ℚ, navLookup nav r.obs_date = some v →
      (computeDay nav r).NAV = some v ∧
      (computeDay nav r).scaled_weight = some (r.weight * v)) := by
  constructor
  · intro h
    simp [computeDay, h, vmul]
  · intro v h
    simp [computeDay, h, vmul]

/-- Diff row with a given observation date on otherwise default columns. -/
def obsRow (od : Int) : DiffRow :=
  { (default : DiffRow) with obs_date := od }

/-- Witness for the C1 amended theorem: against the seed series holding 1
at date 0, a row with obs_date 5 merges a null NAV and scaled_weight,
while a row with obs_date 0 merges NAV 1 and scaled_weight weight times 1. -/
theorem anchor_nav_exact_lookup_witness :
    ((computeDay [((0 : Int), (1 : ℚ))] (obsRow 5)).NAV = none ∧
      (computeDay [((0 : Int), (1 : ℚ))] (obsRow 5)).scaled_weight = none) ∧
    ((computeDay [((0 : Int), (1 : ℚ))] (obsRow 0)).NAV = some 1 ∧
      (computeDay [((0 : Int), (1 : ℚ))] (obsRow 0)).scaled_weight =
        some ((obsRow 0).weight * 1)) :=
  ⟨(anchor_nav_exact_lookup [((0 : Int), (1 : ℚ))] (obsRow 5)).1 rfl,
    (anchor_nav_exact_lookup [((0 : Int), (1 : ℚ))] (obsRow 0)).2 1 rfl⟩

lemma vmul_none_left (x : V) : vmul none x = none := by
  cases x <;> rfl

lemma vmul_none_right (x : V) : vmul x none = none := by
  cases x <;> rfl

lemma vsub_none_right (x : V) : vsub x none = none := by
  cases x <;> rfl

lemma ssum_all_none (l : List V) (h : ∀ v ∈ l, v = none) : ssum l = 0 := by
  induction l with
  | nil => rfl
  | cons a t ih =>
    have ha := h a (by simp)
    subst ha
    exact ih (fun v hv => h v (by simp [hv]))

lemma shiftDiff_dr_none (l : List PositionRow) :
    ∀ st, ∀ r ∈ shiftDiff st l, r.dr = none := by
  induction l with
  | nil => intro st r hr; simp [shiftDiff] at hr
  | cons a t ih =>
    intro st r hr
    simp only [shiftDiff, List.mem_cons] at hr
    rcases hr with hr | hr
    · subst hr
      cases h : lastSeen st a.option_id <;> simp [shiftDiffRow, h]
    · exact ih _ r hr

lemma bfillPrev_dr_none (l : List DiffRow) (h : ∀ r ∈ l, r.dr = none) :
    ∀ r ∈ bfillPrev l, r.dr = none := by
  induction l with
  | nil => intro r hr; simp [bfillPrev] at hr
  | cons a t ih =>
    intro r hr
    simp only [bfillPrev, List.mem_cons] at hr
    rcases hr with hr | hr
    · subst hr
      exact h a (by simp)
    · exact ih (fun s hs => h s (by simp [hs])) r hr

lemma diffPositions_dr_none (l : List PositionRow) :
    ∀ r ∈ diffPositions l, r.dr = none :=
  bfillPrev_dr_none _ (shiftDiff_dr_none l [])

lemma computeDay_rho_residual_none (nav : List (Int × ℚ)) (r : DiffRow)
    (h : r.dr = none) :
    (computeDay nav r).rho_pnl = none ∧ (computeDay nav r).residual_pnl = none := by
  constructor <;>
    simp [computeDay, h, vmul_none_left, vmul_none_right, vsub_none_right]

lemma aggDay_rho_residual_zero (nav : List (Int × ℚ)) (frame : List DiffRow)
    (h : ∀ r ∈ frame, r.dr = none) :
    (aggDay (frame.map (computeDay nav))).rho_pnl = 0 ∧
    (aggDay (frame.map (computeDay nav))).residual_pnl = 0 := by
  constructor <;>
  · apply ssum_all_none
    intro v hv
    simp only [List.map_map, List.mem_map] at hv
    obtain ⟨r, hr, hveq⟩ := hv
    rw [← hveq]
    simp [Function.comp, (computeDay_rho_residual_none nav r (h r hr)).1,
      (computeDay_rho_residual_none nav r (h r hr)).2]

lemma stepDate_rho_residual_inv (rows : List DiffRow)
    (hrows : ∀ r ∈ rows, r.dr = none) (st : BTState) (d : Int)
    (hst : ∀ p ∈ st.df_pnl, (p : Int × PnlVec).2.rho_pnl = 0 ∧ p.2.residual_pnl = 0) :
    ∀ p ∈ (stepDate rows st d).df_pnl,
      (p : Int × PnlVec).2.rho_pnl = 0 ∧ p.2.residual_pnl = 0 := by
  intro p hp
  simp only [stepDate, List.mem_append, List.mem_singleton] at hp
  rcases hp with hp | hp
  · exact hst p hp
  · subst hp
    exact aggDay_rho_residual_zero st.df_nav _
      (fun r hr => hrows r (List.mem_of_mem_filter hr))

lemma foldl_rho_residual_inv (rows : List DiffRow)
    (hrows : ∀ r ∈ rows, r.dr = none) (dates : List Int) :
    ∀ st : BTState,
      (∀ p ∈ st.df_pnl, (p : Int × PnlVec).2.rho_pnl = 0 ∧ p.2.residual_pnl = 0) →
      ∀ p ∈ (List.foldl (stepDate rows) st dates).df_pnl,
        (p : Int × PnlVec).2.rho_pnl = 0 ∧ p.2.residual_pnl = 0 := by
  induction dates with
  | nil => intro st hst; exact hst
  | cons d rest ih =>
    intro st hst
    exact ih (stepDate rows st d) (stepDate_rho_residual_inv rows hrows st d hst)

/-- Unfolding of compute_backtest as a plain fold (zeta reduction of its
let bindings). -/
lemma compute_backtest_def (book : List PositionRow) :
    StrategyBacktester.compute_backtest book =
      List.foldl (stepDate (diffPositions (sort_values book)))
        { df_pnl := [(minDate book - 1, PnlVec.zero)],
          df_nav := [(minDate book - 1, 1)], drifted := [] }
        (uniqueDates (book.map (fun r => r.date))) :=
  rfl

/-- C2 (corrected): since dr is NaN on every differenced row, the per-row
rho and residual P&L values are NaN and the skipna date aggregation turns
both columns into 0 on every date of the output table, so the
decomposition identity reduces to pnl against the four computed Greek
terms and does not hold in general. -/
theorem agg_rho_residual_zero (book : List PositionRow) (d : Int) (v : PnlVec)
    (h : pnlLookup (StrategyBacktester.compute_backtest book).df_pnl d = some v) :
    v.rho_pnl = 0 ∧ v.residual_pnl = 0 := by
  have hmem : ∃ p ∈ (StrategyBacktester.compute_backtest book).df_pnl,
      (p : Int × PnlVec).2 = v := by
    cases hf : ((StrategyBacktester.compute_backtest book).df_pnl).find?
        (fun p => p.1 == d) with
    | none => simp [pnlLookup, hf] at h
    | some p =>
      simp only [pnlLookup, hf, Option.map_some] at h
      exact ⟨p, List.mem_of_find?_eq_some hf, by injection h⟩
  obtain ⟨p, hp, hpv⟩ := hmem
  rw [compute_backtest_def] at hp
  have := foldl_rho_residual_inv
    (diffPositions (sort_values book))
    (diffPositions_dr_none (sort_values book))
    (uniqueDates (book.map (fun r => r.date)))
    { df_pnl := [(minDate book - 1, PnlVec.zero)],
      df_nav := [(minDate book - 1, 1)], drifted := [] }
    (by intro q hq; simp only [List.mem_singleton] at hq; subst hq
        exact ⟨rfl, rfl⟩)
    p hp
  rw [← hpv]
  exact this

/-- Witness for the C2 amended theorem: the date-2 aggregate of ex2Book
has rho and residual aggregates 0. -/
theorem agg_rho_residual_zero_witness :
    ({ pnl := 1, delta_pnl := 0, gamma_pnl := 0, theta_pnl := 0,
       vega_pnl := 0, rho_pnl := 0, residual_pnl := 0,
       leverage := 100, cashflow := 0 } : PnlVec).rho_pnl = 0 ∧
    ({ pnl := 1, delta_pnl := 0, gamma_pnl := 0, theta_pnl := 0,
       vega_pnl := 0, rho_pnl := 0, residual_pnl := 0,
       leverage := 100, cashflow := 0 } : PnlVec).residual_pnl = 0 :=
  agg_rho_residual_zero ex2Book 2 _ (by
    norm_num [StrategyBacktester.compute_backtest, stepDate, navAnchor, computeDay,
      aggDay, ssum, vmul, vadd, vsub, vneg, navLookup, navLatest, navMaxDate,
      pnlLookup, PnlVec.zero, minDate, uniqueDates, insertDate,
      diffPositions, sort_values, insertRow, rowKeyLE, shiftDiff,
      shiftDiffRow, lastSeen, bfillPrev, headPrevs, fillO, ex2Book, baseRow])

lemma bfillPrev_getD_base (l : List DiffRow) (n : Nat) :
    ((bfillPrev l).getD n default).toPositionRow = (l.getD n default).toPositionRow ∧
    ((bfillPrev l).getD n default).dv = (l.getD n default).dv ∧
    ((bfillPrev l).getD n default).dsigma = (l.getD n default).dsigma ∧
    ((bfillPrev l).getD n default).dS = (l.getD n default).dS ∧
    ((bfillPrev l).getD n default).dr = (l.getD n default).dr ∧
    ((bfillPrev l).getD n default).dt = (l.getD n default).dt ∧
    ((bfillPrev l).getD n default).obs_date = (l.getD n default).obs_date := by
  induction l generalizing n with
  | nil => simp [bfillPrev]
  | cons a t ih =>
    cases n with
    | zero => simp [bfillPrev]
    | succ m =>
      simpa only [bfillPrev, List.getD_cons_succ] using ih m

lemma shiftDiff_getD (l : List PositionRow) :
    ∀ (st : List (Nat × PositionRow)) (n : Nat), n < l.length →
      (shiftDiff st l).getD n default =
        shiftDiffRow (((l.take n).reverse.map (fun r => (r.option_id, r))) ++ st)
          (l.getD n default) := by
  induction l with
  | nil =>
    intro st n hn
    simp at hn
  | cons a t ih =>
    intro st n hn
    cases n with
    | zero => simp [shiftDiff]
    | succ m =>
      have hm : m < t.length := by simpa using hn
      simp only [shiftDiff, List.getD_cons_succ, List.take_succ_cons,
        List.reverse_cons, List.map_append, List.map_cons, List.map_nil,
        List.append_assoc, List.singleton_append]
      exact ih ((a.option_id, a) :: st) m hm

lemma lastSeen_map (rl : List PositionRow) (id : Nat) :
    lastSeen (rl.map (fun r => (r.option_id, r))) id =
      rl.find? (fun r => r.option_id == id) := by
  induction rl with
  | nil => rfl
  | cons a t ih =>
    simp only [List.map_cons, lastSeen, List.find?_cons]
    cases h : (a.option_id == id) with
    | true => simp [h]
    | false =>
      simp only [h]
      simpa [lastSeen] using ih

lemma shiftDiffRow_eq_none (st : List (Nat × PositionRow)) (r : PositionRow)
    (h : lastSeen st r.option_id = none) :
    shiftDiffRow st r =
      { toPositionRow := r, dv := 0, dr := none, dsigma := 0, dS := 0,
        dt := 1, prev_theta := none, prev_gamma := none, prev_delta := none,
        prev_vega := none, prev_rho := none, obs_date := r.entry_date - 1 } := by
  unfold shiftDiffRow
  rw [h]

lemma shiftDiffRow_eq_some (st : List (Nat × PositionRow)) (r p : PositionRow)
    (h : lastSeen st r.option_id = some p) :
    shiftDiffRow st r =
      { toPositionRow := r, dv := r.mid - p.mid, dr := none,
        dsigma := r.implied_volatility - p.implied_volatility,
        dS := r.spot - p.spot, dt := 1,
        prev_theta := some p.theta, prev_gamma := some p.gamma,
        prev_delta := some p.delta, prev_vega := some p.vega,
        prev_rho := some p.rho, obs_date := r.entry_date - 1 } := by
  unfold shiftDiffRow
  rw [h]

lemma diffPositions_getD_fields (l : List PositionRow) (n : Nat)
    (hn : n < l.length) :
    ((diffPositions l).getD n default).toPositionRow = l.getD n default ∧
    ((diffPositions l).getD n default).dv =
      (((l.take n).reverse.find?
          (fun p => p.option_id == (l.getD n default).option_id)).elim 0
        (fun p => (l.getD n default).mid - p.mid)) ∧
    ((diffPositions l).getD n default).dsigma =
      (((l.take n).reverse.find?
          (fun p => p.option_id == (l.getD n default).option_id)).elim 0
        (fun p => (l.getD n default).implied_volatility - p.implied_volatility)) ∧
    ((diffPositions l).getD n default).dS =
      (((l.take n).reverse.find?
          (fun p => p.option_id == (l.getD n default).option_id)).elim 0
        (fun p => (l.getD n default).spot - p.spot)) ∧
    ((diffPositions l).getD n default).dr = none ∧
    ((diffPositions l).getD n default).dt = 1 ∧
    ((diffPositions l).getD n default).obs_date =
      (l.getD n default).entry_date - 1 := by
  have hb := bfillPrev_getD_base (shiftDiff [] l) n
  have hs := shiftDiff_getD l [] n hn
  rw [hs, List.append_nil] at hb
  have hls := lastSeen_map ((l.take n).reverse) (l.getD n default).option_id
  unfold diffPositions
  obtain ⟨hb0, hb1, hb2, hb3, hb4, hb5, hb6⟩ := hb
  cases hfind : (l.take n).reverse.find?
      (fun p => p.option_id == (l.getD n default).option_id) with
  | none =>
    rw [hfind] at hls
    rw [shiftDiffRow_eq_none _ _ hls] at hb0 hb1 hb2 hb3 hb4 hb5 hb6
    exact ⟨hb0.trans rfl, hb1.trans rfl, hb2.trans rfl, hb3.trans rfl,
      hb4.trans rfl, hb5.trans rfl, hb6.trans rfl⟩
  | some p =>
    rw [hfind] at hls
    rw [shiftDiffRow_eq_some _ _ p hls] at hb0 hb1 hb2 hb3 hb4 hb5 hb6
    exact ⟨hb0.trans rfl, hb1.trans rfl, hb2.trans rfl, hb3.trans rfl,
      hb4.trans rfl, hb5.trans rfl, hb6.trans rfl⟩

/-- C3 (corrected): for every row, dv, dsigma and dS are the first
differences of mid, implied volatility and spot against the most recent
earlier row of the same instrument, 0 when there is no such row; dr,
however, is not the first difference of the risk-free rate: it is NaN on
every row, the rate differencing being disabled in the source. -/
theorem differencer_first_difference (l : List PositionRow) (n : Nat)
    (hn : n < l.length) :
    ((diffPositions l).getD n default).dv =
      (((l.take n).reverse.find?
          (fun p => p.option_id == (l.getD n default).option_id)).elim 0
        (fun p => (l.getD n default).mid - p.mid)) ∧
    ((diffPositions l).getD n default).dsigma =
      (((l.take n).reverse.find?
          (fun p => p.option_id == (l.getD n default).option_id)).elim 0
        (fun p => (l.getD n default).implied_volatility - p.implied_volatility)) ∧
    ((diffPositions l).getD n default).dS =
      (((l.take n).reverse.find?
          (fun p => p.option_id == (l.getD n default).option_id)).elim 0
        (fun p => (l.getD n default).spot - p.spot)) ∧
    ((diffPositions l).getD n default).dr = none := by
  obtain ⟨-, h1, h2, h3, h4, -, -⟩ := diffPositions_getD_fields l n hn
  exact ⟨h1, h2, h3, h4⟩

/-- Witness for the C3 amended theorem, at the second row of ex3Book. -/
theorem differencer_first_difference_witness :
    ((diffPositions ex3Book).getD 1 default).dv =
      (((ex3Book.take 1).reverse.find?
          (fun p => p.option_id == (ex3Book.getD 1 default).option_id)).elim 0
        (fun p => (ex3Book.getD 1 default).mid - p.mid)) ∧
    ((diffPositions ex3Book).getD 1 default).dsigma =
      (((ex3Book.take 1).reverse.find?
          (fun p => p.option_id == (ex3Book.getD 1 default).option_id)).elim 0
        (fun p => (ex3Book.getD 1 default).implied_volatility - p.implied_volatility)) ∧
    ((diffPositions ex3Book).getD 1 default).dS =
      (((ex3Book.take 1).reverse.find?
          (fun p => p.option_id == (ex3Book.getD 1 default).option_id)).elim 0
        (fun p => (ex3Book.getD 1 default).spot - p.spot)) ∧
    ((diffPositions ex3Book).getD 1 default).dr = none :=
  differencer_first_difference ex3Book 1 (by decide)

/-- C4 (corrected): an instrument's very first row (no earlier row of the
same instrument) has dv, dsigma, dS all 0 and so contributes zero pnl,
delta, gamma and vega P&L when its anchor NAV and its backward-filled
lagged Greeks resolve; but its theta P&L is scaled_weight times its lagged
theta (dt is the constant 1, not a first difference), which is nonzero in
general, and its rho and residual P&L are NaN (dropped by the skipna date
aggregation, hence contributing nothing to those aggregates). -/
theorem first_row_contribution (l : List PositionRow)
    (nav : List (Int × ℚ)) (n : Nat) (hn : n < l.length)
    (hfirst : (l.take n).reverse.find?
      (fun p => p.option_id == (l.getD n default).option_id) = none)
    (v t pd pg pv : ℚ)
    (hnav : navLookup nav ((diffPositions l).getD n default).obs_date = some v)
    (ht : ((diffPositions l).getD n default).prev_theta = some t)
    (hpd : ((diffPositions l).getD n default).prev_delta = some pd)
    (hpg : ((diffPositions l).getD n default).prev_gamma = some pg)
    (hpv : ((diffPositions l).getD n default).prev_vega = some pv) :
    (computeDay nav ((diffPositions l).getD n default)).pnl = some 0 ∧
    (computeDay nav ((diffPositions l).getD n default)).delta_pnl = some 0 ∧
    (computeDay nav ((diffPositions l).getD n default)).gamma_pnl = some 0 ∧
    (computeDay nav ((diffPositions l).getD n default)).vega_pnl = some 0 ∧
    (computeDay nav ((diffPositions l).getD n default)).theta_pnl =
      some (((diffPositions l).getD n default).weight * v * t) ∧
    (computeDay nav ((diffPositions l).getD n default)).rho_pnl = none ∧
    (computeDay nav ((diffPositions l).getD n default)).residual_pnl = none := by
  obtain ⟨-, hdv, hdsig, hdS, hdr, hdt, -⟩ := diffPositions_getD_fields l n hn
  rw [hfirst] at hdv hdsig hdS
  simp only [Option.elim] at hdv hdsig hdS
  set R := (diffPositions l).getD n default with hR
  clear hR hfirst hn
  refine ⟨?_, ?_, ?_, ?_, ?_, ?_, ?_⟩ <;>
    simp [computeDay, hnav, hdv, hdsig, hdS, hdr, hdt, ht, hpd, hpg, hpv,
      vmul, vneg, vsub, vmul_none_left, vmul_none_right, vsub_none_right]

/-- Witness for the C4 amended theorem: the first row of ex4Book, against
the seed NAV series, has zero pnl, delta, gamma and vega P&L, theta P&L
weight times 1 times 1, and NaN rho and residual P&L. -/
theorem first_row_contribution_witness :
    (computeDay [((0 : Int), (1 : ℚ))]
      ((diffPositions ex4Book).getD 0 default)).pnl = some 0 ∧
    (computeDay [((0 : Int), (1 : ℚ))]
      ((diffPositions ex4Book).getD 0 default)).delta_pnl = some 0 ∧
    (computeDay [((0 : Int), (1 : ℚ))]
      ((diffPositions ex4Book).getD 0 default)).gamma_pnl = some 0 ∧
    (computeDay [((0 : Int), (1 : ℚ))]
      ((diffPositions ex4Book).getD 0 default)).vega_pnl = some 0 ∧
    (computeDay [((0 : Int), (1 : ℚ))]
      ((diffPositions ex4Book).getD 0 default)).theta_pnl =
      some (((diffPositions ex4Book).getD 0 default).weight * 1 * 1) ∧
    (computeDay [((0 : Int), (1 : ℚ))]
      ((diffPositions ex4Book).getD 0 default)).rho_pnl = none ∧
    (computeDay [((0 : Int), (1 : ℚ))]
      ((diffPositions ex4Book).getD 0 default)).residual_pnl = none :=
  first_row_contribution ex4Book [((0 : Int), (1 : ℚ))] 0 (by decide) rfl
    1 1 0 0 0 rfl rfl rfl rfl rfl

lemma pnlLookup_append_left (xs ys : List (Int × PnlVec)) (d : Int)
    (v : PnlVec) (h : pnlLookup xs d = some v) :
    pnlLookup (xs ++ ys) d = some v := by
  induction xs with
  | nil => simp [pnlLookup] at h
  | cons a t ih =>
    simp only [pnlLookup, List.cons_append, List.find?_cons] at h ⊢
    cases hb : (a.1 == d) with
    | true => simpa [hb] using h
    | false =>
      simp only [hb] at h ⊢
      exact ih h

lemma stepDate_df_pnl (rows : List DiffRow) (st : BTState) (d : Int) :
    (stepDate rows st d).df_pnl =
      st.df_pnl ++
        [(d, aggDay ((rows.filter (fun r => r.date == d)).map
          (computeDay st.df_nav)))] :=
  rfl

lemma pnl_lookup_foldl_stable (rows : List DiffRow) (dates : List Int) :
    ∀ (st : BTState) (d : Int) (v : PnlVec),
      pnlLookup st.df_pnl d = some v →
      pnlLookup (List.foldl (stepDate rows) st dates).df_pnl d = some v := by
  induction dates with
  | nil => intro st d v h; exact h
  | cons e rest ih =>
    intro st d v h
    rw [List.foldl_cons]
    exact ih (stepDate rows st e) d v
      (by rw [stepDate_df_pnl]; exact pnlLookup_append_left _ _ _ _ h)

lemma pnlLookup_append_self (xs : List (Int × PnlVec)) (d : Int) (w : PnlVec) :
    ∃ v, pnlLookup (xs ++ [(d, w)]) d = some v := by
  induction xs with
  | nil => exact ⟨w, by simp [pnlLookup]⟩
  | cons a t ih =>
    cases hb : (a.1 == d) with
    | true => exact ⟨a.2, by simp [pnlLookup, List.find?_cons, hb]⟩
    | false =>
      obtain ⟨v, hv⟩ := ih
      refine ⟨v, ?_⟩
      simpa [pnlLookup, List.find?_cons, hb] using hv

/-- One claim-side compounding step, per the wording of the spec (sections
3 and 4.5): append NAV at the date as the anchor entry (exact entry when
the date is already a key, else the entry at the series maximum date) plus
the aggregated pnl of that date read from the daily P&L table. -/
def navStepPerClaim (tbl : List (Int × PnlVec)) (nav : List (Int × ℚ))
    (d : Int) : List (Int × ℚ) :=
  nav ++ [(d, navAnchor nav d + ((pnlLookup tbl d).getD PnlVec.zero).pnl)]

/-- Claim-side NAV series: seeded with 1 at the given synthetic date and
extended by one compounding step per distinct trading date in order. -/
def navPerClaim (tbl : List (Int × PnlVec)) (d0 : Int) (dates : List Int) :
    List (Int × ℚ) :=
  dates.foldl (navStepPerClaim tbl) [(d0, 1)]

lemma stepDate_df_nav_eq_claim (rows : List DiffRow) (dates : List Int)
    (st : BTState) (d : Int) :
    (stepDate rows st d).df_nav =
      navStepPerClaim
        (List.foldl (stepDate rows) (stepDate rows st d) dates).df_pnl
        st.df_nav d := by
  obtain ⟨v, hv⟩ : ∃ v, pnlLookup (stepDate rows st d).df_pnl d = some v := by
    rw [stepDate_df_pnl]
    exact pnlLookup_append_self _ _ _
  have hvP := pnl_lookup_foldl_stable rows dates (stepDate rows st d) d v hv
  show st.df_nav ++ [(d, navAnchor st.df_nav d +
      ((pnlLookup (stepDate rows st d).df_pnl d).getD PnlVec.zero).pnl)] =
    navStepPerClaim _ st.df_nav d
  rw [hv, navStepPerClaim, hvP]

lemma foldl_nav_eq (rows : List DiffRow) (dates : List Int) :
    ∀ st : BTState,
      (List.foldl (stepDate rows) st dates).df_nav =
        dates.foldl
          (navStepPerClaim (List.foldl (stepDate rows) st dates).df_pnl)
          st.df_nav := by
  induction dates with
  | nil => intro st; rfl
  | cons d rest ih =>
    intro st
    rw [List.foldl_cons, List.foldl_cons, ih (stepDate rows st d)]
    exact congrArg (fun x => List.foldl (navStepPerClaim _) x rest)
      (stepDate_df_nav_eq_claim rows rest st d)

lemma insertDate_chain (d : Int) :
    ∀ l : List Int, List.Chain' (· < ·) l →
      (List.Chain' (· < ·) (insertDate d l) ∧
        ∀ y, (insertDate d l).head? = some y → y = d ∨ l.head? = some y) := by
  intro l
  induction l with
  | nil =>
    intro _
    refine ⟨List.chain'_singleton d, fun y hy => Or.inl ?_⟩
    simp only [insertDate, List.head?_cons, Option.some.injEq] at hy
    omega
  | cons x t ih =>
    intro h
    by_cases h1 : d < x
    · refine ⟨?_, ?_⟩
      · simp only [insertDate, if_pos h1]
        exact List.chain'_cons'.2 ⟨fun y hy => by simp at hy; omega, h⟩
      · intro y hy
        simp only [insertDate, if_pos h1, List.head?_cons] at hy
        exact Or.inl (by injection hy with h2; omega)
    · by_cases h2 : d = x
      · refine ⟨?_, ?_⟩
        · simp only [insertDate, if_neg h1, if_pos h2]
          exact h
        · intro y hy
          simp only [insertDate, if_neg h1, if_pos h2] at hy
          exact Or.inr hy
      · have hx : x < d := by omega
        have ht := (List.chain'_cons'.1 h).2
        have hhead := (List.chain'_cons'.1 h).1
        obtain ⟨ihc, ihh⟩ := ih ht
        refine ⟨?_, ?_⟩
        · simp only [insertDate, if_neg h1, if_neg h2]
          refine List.chain'_cons'.2 ⟨?_, ihc⟩
          intro y hy
          rcases ihh y hy with hyd | hyt
          · omega
          · exact hhead y hyt
        · intro y hy
          simp only [insertDate, if_neg h1, if_neg h2, List.head?_cons] at hy
          exact Or.inr hy

lemma uniqueDates_chain (l : List Int) :
    List.Chain' (· < ·) (uniqueDates l) := by
  induction l with
  | nil => exact List.chain'_nil
  | cons a t ih => exact (insertDate_chain a (uniqueDates t) ih).1

/-- C5 (confirmed): the NAV series of the run equals the claim-side
recurrence: seeded with 1 at one day before the first position date, then
one appended entry per distinct trading date in strictly ascending order,
each equal to the anchor (the exact entry at that date when it is already
a key, otherwise the entry at the series maximum date) plus that date's
aggregated pnl from the daily P&L table. -/
theorem nav_compounding_recurrence (book : List PositionRow) :
    (StrategyBacktester.compute_backtest book).df_nav =
      navPerClaim (StrategyBacktester.compute_backtest book).df_pnl
        (minDate book - 1) (uniqueDates (book.map (fun r => r.date))) ∧
    List.Chain' (· < ·) (uniqueDates (book.map (fun r => r.date))) := by
  refine ⟨?_, uniqueDates_chain _⟩
  rw [compute_backtest_def, navPerClaim]
  exact foldl_nav_eq _ _ _
